import Mathlib

/-!
Shallow embedding of the `Vector<T>` dynamic-array container of this repository
(implementation file `Vector.tpp`, header `Vector.hpp`).

Modelling conventions:
* The element type is fixed to `Int`, matching the template's default argument
  (`template<class T = int>`) and the instantiation used throughout the test suite.
  `T()`, `T{}` and the literal `0` used by the source all denote `(0 : Int)`.
* `size_t` is modelled as `Nat` (the source's `index < 0` tests on a `size_t`
  are vacuous and are noted where they occur).
* The raw heap block `T* m_Data` is `Option (List Int)`: `none` is the null
  pointer, `some l` is an allocated block of `l.length` slots.  `new T[n]`
  yields a non-null block even for `n = 0`.  A freshly allocated block holds
  indeterminate values; every code path below overwrites each slot it later
  exposes, so the model never has to pick those values except as dead content.
* A read or write through a null pointer, or outside an allocated block, is
  undefined behaviour in the source; the model makes it the explicit error
  `CppErr.ub`.  Thrown exceptions map to the other `CppErr` constructors.
* Fallible operations return `Except CppErr`; member functions that mutate the
  vector take and return the whole state `VecState`.
-/

namespace DSVector

/-- Error outcomes of an operation: the three exception types thrown by the
source (`std::invalid_argument`, `std::out_of_range`, the custom
`VectorException`), plus `ub` for undefined behaviour (null/out-of-bounds raw
pointer access). -/
inductive CppErr where
  | invalidArgument
  | outOfRange
  | vectorException
  | ub
deriving DecidableEq, Repr

/-- The state of one `Vector<int>` object: fields `m_Data`, `m_Size`,
`m_Capacity` exactly as in the source.  `m_Data = none` models the null
pointer; `m_Data = some l` models a heap block of `l.length` slots. -/
structure VecState where
  m_Data : Option (List Int)
  m_Size : Nat
  m_Capacity : Nat
deriving DecidableEq, Repr

/-- Read `m_Data[i]`: undefined behaviour on a null pointer or outside the
allocated block. -/
def blockRead (d : Option (List Int)) (i : Nat) : Except CppErr Int :=
  match d with
  | none => .error .ub
  | some l =>
    match l.get? i with
    | none => .error .ub
    | some x => .ok x

/-- Write `m_Data[i] = x`: undefined behaviour on a null pointer or outside the
allocated block. -/
def blockWrite (d : Option (List Int)) (i : Nat) (x : Int) :
    Except CppErr (Option (List Int)) :=
  match d with
  | none => .error .ub
  | some l => if i < l.length then .ok (some (l.set i x)) else .error .ub

/-- `std::copy(m_Data, m_Data + n, newBlock)`: reading the first `n` slots of a
block.  Copying zero elements touches no memory and is fine even from a null
pointer. -/
def readSeg (d : Option (List Int)) (n : Nat) : Except CppErr (List Int) :=
  if n = 0 then .ok []
  else
    match d with
    | none => .error .ub
    | some l => if n ≤ l.length then .ok (l.take n) else .error .ub

/-- `Vector()` : null buffer, zero size, zero capacity. -/
def defaultVector : VecState := ⟨none, 0, 0⟩

/-- `Vector(size_t size, const T& defaultValue = 0)` : allocates `size` slots
(`m_Capacity = m_Size = size`) and fills all of `[0, size)` with
`defaultValue`.  (The source's `size < 0` check on a `size_t` is vacuous.) -/
def mkVector (size : Nat) (defaultValue : Int) : VecState :=
  ⟨some (List.replicate size defaultValue), size, size⟩

/-- `Vector(std::initializer_list<T> values)` : allocates exactly
`values.size()` slots and copies the values in order. -/
def mkVectorOf (values : List Int) : VecState :=
  ⟨some values, values.length, values.length⟩

/-- `Full()` : `m_Size == m_Capacity`. -/
def Full (s : VecState) : Bool := s.m_Size == s.m_Capacity

/-- `Empty()` : `m_Size == 0`. -/
def Empty (s : VecState) : Bool := s.m_Size == 0

/-- The live element sequence `m_Data[0 .. m_Size)` — the caller-observable
content of the vector (observation function, not part of the source). -/
def live (s : VecState) : List Int :=
  match s.m_Data with
  | none => []
  | some l => l.take s.m_Size

/-- Well-formedness of a state as produced by correct use: the block length is
exactly `m_Capacity`, `m_Size ≤ m_Capacity`, and a null pointer goes with zero
size and capacity (observation function, not part of the source). -/
def wfb (s : VecState) : Bool :=
  match s.m_Data with
  | none => s.m_Size == 0 && s.m_Capacity == 0
  | some l => l.length == s.m_Capacity && decide (s.m_Size ≤ s.m_Capacity)

/-- `void ReAlloc(const size_t newCapacity)` (the fill-with-`0` overload).
When `newCapacity ≤ m_Capacity` the source reallocates nothing and instead
assigns `m_Size = newCapacity; m_Capacity = m_Size;`.  Otherwise it allocates
`new T[newCapacity]`, copies the `m_Size` live elements across (undefined
behaviour if they do not fit, which needs an already-broken state), deletes the
old block, fills `[m_Size, newCapacity)` with the literal `0`, and sets
`m_Capacity = newCapacity` — leaving `m_Size` unchanged. -/
def ReAlloc (s : VecState) (newCapacity : Nat) : Except CppErr VecState :=
  if newCapacity ≤ s.m_Capacity then
    .ok { s with m_Size := newCapacity, m_Capacity := newCapacity }
  else
    match readSeg s.m_Data s.m_Size with
    | .error e => .error e
    | .ok old =>
      if s.m_Size ≤ newCapacity then
        .ok { s with
                m_Data := some (old ++ List.replicate (newCapacity - s.m_Size) 0),
                m_Capacity := newCapacity }
      else .error .ub

/-- `void ReAlloc(const size_t newCapacity, const T& defaultValue)` : same as
`ReAlloc` but the new tail `[m_Size, newCapacity)` is filled with
`defaultValue` instead of `0`. -/
def ReAllocFill (s : VecState) (newCapacity : Nat) (defaultValue : Int) :
    Except CppErr VecState :=
  if newCapacity ≤ s.m_Capacity then
    .ok { s with m_Size := newCapacity, m_Capacity := newCapacity }
  else
    match readSeg s.m_Data s.m_Size with
    | .error e => .error e
    | .ok old =>
      if s.m_Size ≤ newCapacity then
        .ok { s with
                m_Data := some (old ++ List.replicate (newCapacity - s.m_Size) defaultValue),
                m_Capacity := newCapacity }
      else .error .ub

/-- `void Reserve(size_t newCapacity)` : no-op when `newCapacity ≤ m_Capacity`,
otherwise `ReAlloc(newCapacity)`. -/
def Reserve (s : VecState) (newCapacity : Nat) : Except CppErr VecState :=
  if newCapacity ≤ s.m_Capacity then .ok s else ReAlloc s newCapacity

/-- `void Shrink_To_Fit()` : allocates `new T[m_Size]` (a non-null block, even
for `m_Size = 0`), copies the live elements, deletes the old block, and sets
`m_Capacity = m_Size`. -/
def Shrink_To_Fit (s : VecState) : Except CppErr VecState :=
  match readSeg s.m_Data s.m_Size with
  | .error e => .error e
  | .ok seg => .ok { s with m_Data := some seg, m_Capacity := s.m_Size }

/-- `const T& Push_Back(const T& element)` : if `Full()` then
`ReAlloc(m_Capacity + m_Capacity / 2)`; then `m_Data[m_Size++] = element;
return m_Data[m_Size - 1];`. -/
def Push_Back (s : VecState) (element : Int) : Except CppErr (VecState × Int) :=
  match (if Full s then ReAlloc s (s.m_Capacity + s.m_Capacity / 2) else .ok s) with
  | .error e => .error e
  | .ok s1 =>
    match blockWrite s1.m_Data s1.m_Size element with
    | .error e => .error e
    | .ok d =>
      let s2 : VecState := { s1 with m_Data := d, m_Size := s1.m_Size + 1 }
      match blockRead s2.m_Data (s2.m_Size - 1) with
      | .error e => .error e
      | .ok r => .ok (s2, r)

/-- `void Push_Back(T&& element)` : if `Full()` then
`ReAlloc(m_Capacity + m_Capacity / 2)`; then placement-new constructs the
element at `&m_Data[m_Size]`.  The source never increments `m_Size` in this
overload. -/
def Push_Back_Move (s : VecState) (element : Int) : Except CppErr VecState :=
  match (if Full s then ReAlloc s (s.m_Capacity + s.m_Capacity / 2) else .ok s) with
  | .error e => .error e
  | .ok s1 =>
    match blockWrite s1.m_Data s1.m_Size element with
    | .error e => .error e
    | .ok d => .ok { s1 with m_Data := d }

/-- `T Pop_Back()` : if non-empty, `--m_Size`, take a copy of the old last
element, destroy it (a no-op for `int`; the slot keeps its value), and return
the copy; if empty, return `T()`. -/
def Pop_Back (s : VecState) : Except CppErr (VecState × Int) :=
  if ¬ Empty s then
    match blockRead s.m_Data (s.m_Size - 1) with
    | .error e => .error e
    | .ok x => .ok ({ s with m_Size := s.m_Size - 1 }, x)
  else .ok (s, 0)

/-- `void Resize(size_t newSize)` : delegates to `ReAlloc(newSize)`. -/
def Resize (s : VecState) (newSize : Nat) : Except CppErr VecState :=
  ReAlloc s newSize

/-- `void Resize(size_t newSize, const T& defaultValue)` : delegates to
`ReAlloc(newSize, defaultValue)`. -/
def ResizeFill (s : VecState) (newSize : Nat) (defaultValue : Int) :
    Except CppErr VecState :=
  ReAllocFill s newSize defaultValue

/-- `void Clear()` : no-op when empty, otherwise destroys the elements (a no-op
for `int`) and sets `m_Size = 0`; the block and capacity are untouched. -/
def Clear (s : VecState) : VecState :=
  if Empty s then s else { s with m_Size := 0 }

/-- `void Swap(Vector<T>& v)` : exchanges the three fields. -/
def Swap (s t : VecState) : VecState × VecState := (t, s)

/-- `Vector(Vector<T>&& otherVector)` : the new object takes the source's three
fields; the source is reset to null buffer, zero size, zero capacity.  Returns
(constructed object, source afterwards). -/
def moveCtor (src : VecState) : VecState × VecState :=
  (⟨src.m_Data, src.m_Size, src.m_Capacity⟩, ⟨none, 0, 0⟩)

/-- `Vector<T>&& operator=(const Vector<T>&& otherVector)` on two distinct
objects: the source sets `this`'s three fields to the empty state and then
also sets `otherVector`'s three fields to the empty state — it never copies
the buffer pointer across.  Returns (`*this` afterwards, source afterwards).
(On self-assignment the body is skipped; the model covers distinct objects.) -/
def moveAssign (thisV otherV : VecState) : VecState × VecState :=
  (⟨none, 0, 0⟩, ⟨none, 0, 0⟩)

/-- `operator[](size_t index)` (const and non-const are identical): throws
`std::invalid_argument` when `index >= m_Size` (the `index < 0` disjunct is
vacuous for `size_t`), else returns `m_Data[index]`.  A pure read: the state
is unchanged by construction. -/
def subscriptOp (s : VecState) (index : Nat) : Except CppErr Int :=
  if s.m_Size ≤ index then .error .invalidArgument
  else blockRead s.m_Data index

/-- `At(size_t index)` (const and non-const): `return (*this)[index];` — a
plain delegation to `operator[]`. -/
def At (s : VecState) (index : Nat) : Except CppErr Int :=
  subscriptOp s index

/-- `Back()` : throws `std::out_of_range` when empty, else returns
`m_Data[m_Size - 1]`. -/
def Back (s : VecState) : Except CppErr Int :=
  if s.m_Size = 0 then .error .outOfRange
  else blockRead s.m_Data (s.m_Size - 1)

/-- `Front()` : throws `std::out_of_range` when empty, else returns
`m_Data[0]`. -/
def Front (s : VecState) : Except CppErr Int :=
  if s.m_Size = 0 then .error .outOfRange
  else blockRead s.m_Data 0

/-- The block after the left-shift loop of `Erase(const size_t&)`:
`for (i = index; i < m_Size - 1; ++i) m_Data[i] = m_Data[i + 1]`.
Slots `[index, size-1)` receive the old slots `[index+1, size)`; slots
`[size-1, length)` keep their old values (the loop's last write is at
`size - 2`). -/
def shiftLeftSeg (l : List Int) (index size : Nat) : List Int :=
  l.take index ++ (l.drop (index + 1)).take (size - 1 - index) ++ l.drop (size - 1)

/-- `T Erase(const size_t& index)` : when `index >= m_Size`, return `T()`
without touching the vector; otherwise copy out `m_Data[index]`, shift
`[index+1, size)` left by one, and decrement `m_Size`.  The loop reads and
writes only inside `[index, m_Size)`, so it is defined iff those slots exist. -/
def Erase (s : VecState) (index : Nat) : Except CppErr (VecState × Int) :=
  if s.m_Size ≤ index then .ok (s, 0)
  else
    match blockRead s.m_Data index with
    | .error e => .error e
    | .ok erased =>
      match s.m_Data with
      | none => .error .ub
      | some l =>
        if s.m_Size ≤ l.length then
          .ok ({ s with
                   m_Data := some (shiftLeftSeg l index s.m_Size),
                   m_Size := s.m_Size - 1 }, erased)
        else .error .ub

/-- The block after the right-shift loop of `Insert(const size_t&, const T&)`:
`for (i = m_Size; i > index; --i) m_Data[i] = m_Data[i - 1]`.
Slots `[index+1, size+1)` receive the old slots `[index, size)`; slot `index`
and slots `[size+1, length)` keep their old values. -/
def shiftRightSeg (l : List Int) (index size : Nat) : List Int :=
  l.take (index + 1) ++ (l.drop index).take (size - index) ++ l.drop (size + 1)

/-- `const T& Insert(const size_t& index, const T& element)` : throws
`std::out_of_range` when `index >= m_Size` (the `index < 0` disjunct is
vacuous for `size_t`); otherwise grows by `ReAlloc(m_Capacity + m_Capacity/2)`
when `m_Size == m_Capacity`, shifts `[index, m_Size)` right by one (the loop's
top write is at slot `m_Size`, so that slot must exist), writes `element` at
`index`, increments `m_Size`, and returns `m_Data[index]`. -/
def Insert (s : VecState) (index : Nat) (element : Int) :
    Except CppErr (VecState × Int) :=
  if s.m_Size ≤ index then .error .outOfRange
  else
    match (if s.m_Size = s.m_Capacity
           then ReAlloc s (s.m_Capacity + s.m_Capacity / 2)
           else .ok s) with
    | .error e => .error e
    | .ok s1 =>
      match s1.m_Data with
      | none => .error .ub
      | some l =>
        if s1.m_Size < l.length then
          match blockWrite (some (shiftRightSeg l index s1.m_Size)) index element with
          | .error e => .error e
          | .ok d2 =>
            let s2 : VecState := { s1 with m_Data := d2, m_Size := s1.m_Size + 1 }
            match blockRead s2.m_Data index with
            | .error e => .error e
            | .ok r => .ok (s2, r)
        else .error .ub

/-- The block after the shift loop of the bulk
`Insert(iterator, std::initializer_list<T>)`:
`for (i = m_Size; i > insertIndex; --i) m_Data[i + count - 1] = m_Data[i - 1]`.
Slots `[index+count, size+count)` receive the old slots `[index, size)`;
slots `[index, index+count)` keep their old values until the copy loop
overwrites them. -/
def shiftRightBySeg (l : List Int) (index size count : Nat) : List Int :=
  l.take (index + count) ++ (l.drop index).take (size - index) ++ l.drop (size + count)

/-- The copy loop of the bulk insert: writes `elements` into slots
`[index, index + elements.length)`. -/
def writeSeg (l : List Int) (index : Nat) (xs : List Int) : List Int :=
  l.take index ++ xs ++ l.drop (index + xs.length)

/-- `void Insert(iterator pos, std::initializer_list<T> elements)` with
`insertIndex = pos - begin()` : throws `std::out_of_range` when
`insertIndex > m_Size`; computes `newSize = m_Size + count` and, when
`newSize > m_Capacity`, grows by
`ReAlloc(std::max(m_Capacity + m_Capacity / 2, newSize))`; then the shift loop
and the copy loop together touch exactly the slots `[insertIndex, m_Size +
count)` (no memory access at all when that range is empty), and finally
`m_Size = newSize`. -/
def InsertList (s : VecState) (insertIndex : Nat) (elements : List Int) :
    Except CppErr VecState :=
  if s.m_Size < insertIndex then .error .outOfRange
  else
    -- count = elements.length, newSize = m_Size + count (written out below)
    match (if s.m_Capacity < s.m_Size + elements.length
           then ReAlloc s (max (s.m_Capacity + s.m_Capacity / 2) (s.m_Size + elements.length))
           else .ok s) with
    | .error e => .error e
    | .ok s1 =>
      if insertIndex = s1.m_Size ∧ elements.length = 0 then
        .ok { s1 with m_Size := s.m_Size + elements.length }
      else
        match s1.m_Data with
        | none => .error .ub
        | some l =>
          if s1.m_Size + elements.length ≤ l.length then
            .ok { s1 with
                    m_Data := some (writeSeg
                                      (shiftRightBySeg l insertIndex s1.m_Size elements.length)
                                      insertIndex elements),
                    m_Size := s.m_Size + elements.length }
          else .error .ub

/-- `Vector<T> operator+(const Vector<T>& otherVector)` : builds
`Vector<T> result(newSize)` with `newSize = m_Size + otherVector.m_Size`
(sized constructor, zero fill), then copies `this`'s live elements to
`result[0 .. m_Size)` and `otherVector`'s live elements to
`result[m_Size .. newSize)` — a concatenation.  Every bounds check inside
`result[...]` passes, and every slot of `result` is overwritten, so the result
block is exactly the concatenation of the two live sequences. -/
def vaddVec (a b : VecState) : Except CppErr VecState :=
  match readSeg a.m_Data a.m_Size with
  | .error e => .error e
  | .ok la =>
    match readSeg b.m_Data b.m_Size with
    | .error e => .error e
    | .ok lb => .ok ⟨some (la ++ lb), a.m_Size + b.m_Size, a.m_Size + b.m_Size⟩

/-- `Vector<T> operator-(const Vector<T>& otherVector)` : builds
`Vector<T> result(newSize)` with `newSize = max(m_Size, otherVector.m_Size)`
and sets `result[i] = (i < m_Size ? m_Data[i] : T()) -
(i < otherVector.m_Size ? otherVector[i] : T{})` for every `i < newSize`
(`T()` and `T{}` are `0` for `int`; every slot of `result` is overwritten). -/
def vsubVec (a b : VecState) : Except CppErr VecState :=
  match readSeg a.m_Data a.m_Size with
  | .error e => .error e
  | .ok la =>
    match readSeg b.m_Data b.m_Size with
    | .error e => .error e
    | .ok lb =>
      let newSize := max a.m_Size b.m_Size
      .ok ⟨some ((List.range newSize).map fun i => la.getD i 0 - lb.getD i 0),
           newSize, newSize⟩

/-! Claim theorems. -/

/-- C1: the claim (and the spec) requires that growth from capacity 0 still
produce a usable positive capacity, so that repeated `Push_Back` on a
default-constructed vector succeeds.  The code violates this: on a
default-constructed vector `Push_Back` computes `ReAlloc(0 + 0/2) =
ReAlloc(0)`, which leaves capacity at 0 (it merely re-assigns
`m_Size = m_Capacity = 0` and returns), and the subsequent
`m_Data[m_Size++] = element` writes through the null buffer — undefined
behaviour, and the capacity never becomes positive.  (The test fixture builds
its vector by five `Push_Back` calls on a default-constructed vector and
expects capacity 6, so the code contradicts its own tests.) -/
theorem C1_push_back_from_zero_capacity_is_ub (x : Int) :
    Push_Back defaultVector x = .error .ub ∧
    ReAlloc defaultVector (defaultVector.m_Capacity + defaultVector.m_Capacity / 2) =
      .ok defaultVector :=
  ⟨rfl, rfl⟩

/-- C2: the claim says `c.At(c.size())` raises `InvalidArgument` (true) while
`c[c.size()]` raises the custom `VectorException`, a distinct kind.  In the
code `operator[]` throws `std::invalid_argument` and `At` merely delegates to
`operator[]`, so both accessors raise the same `InvalidArgument` signal and
`VectorException` is never thrown; the header documentation and the unit tests
(`EXPECT_THROW(v[5], VectorException)`) demand `VectorException`, so the code
contradicts its own documentation and tests.  Both accessors are reads and
leave the state unchanged (they are state-to-value functions in this model). -/
theorem C2_subscript_throws_invalid_argument_not_vector_exception (s : VecState) :
    At s s.m_Size = .error .invalidArgument ∧
    subscriptOp s s.m_Size = .error .invalidArgument ∧
    CppErr.invalidArgument ≠ CppErr.vectorException := by
  refine ⟨?_, ?_, by decide⟩ <;> simp [At, subscriptOp]

/-- C3: the claim says that after either `Push_Back` overload, `Back()` is the
pushed element and the size grew by one.  The copying overload does behave so
on `{1,2,3}`, but the rvalue overload constructs the element at
`&m_Data[m_Size]` and never increments `m_Size`: after
`Push_Back(std::move(10))` on `{1,2,3}` the size is still 3 and `Back()` is
still 3.  The unit test for the rvalue overload expects size 6 after pushing
onto a 5-element vector, so the code contradicts its own tests. -/
theorem C3_rvalue_push_back_does_not_append :
    Push_Back (mkVectorOf [1, 2, 3]) 10 = .ok (⟨some [1, 2, 3, 10], 4, 4⟩, 10) ∧
    Push_Back_Move (mkVectorOf [1, 2, 3]) 10 = .ok ⟨some [1, 2, 3, 10], 3, 4⟩ ∧
    Back ⟨some [1, 2, 3, 10], 3, 4⟩ = .ok 3 :=
  ⟨rfl, rfl, rfl⟩

/-- C4: the claim says `Resize(n)` always yields `size() == n`, fills
`[old_size, n)` with the fill value, and, when shrinking, reduces only the
size.  The code delegates to `ReAlloc`, whose growing branch never updates
`m_Size` (so `Resize(5)` on `{1,2,3}` leaves `size() == 3`, and the freshly
filled slots sit beyond the size), and whose `newSize ≤ capacity` branch sets
`m_Capacity = newSize` as well (so shrinking `{1,2,3}` to 2 also shrinks the
capacity to 2).  The unit tests expect `size() == 10` after `Resize(10)` on a
5-element vector and an unchanged capacity after shrinking, so the code
contradicts its own tests. -/
theorem C4_resize_neither_sets_size_nor_preserves_capacity :
    Resize (mkVectorOf [1, 2, 3]) 5 = .ok ⟨some [1, 2, 3, 0, 0], 3, 5⟩ ∧
    ResizeFill (mkVectorOf [1, 2, 3]) 5 9 = .ok ⟨some [1, 2, 3, 9, 9], 3, 5⟩ ∧
    Resize (mkVectorOf [1, 2, 3]) 2 = .ok ⟨some [1, 2, 3], 2, 2⟩ :=
  ⟨rfl, rfl, rfl⟩

/-- C5: the claim says both move construction and move assignment transfer the
buffer and the size/capacity fields to the destination and empty the source.
The move constructor does exactly that, but the move assignment operator sets
`this`'s fields to the empty state and then also empties the source without
ever copying the fields across: assigning from `{1,2,3}` into `{4,5}` leaves
the destination empty instead of holding `{1,2,3}`.  The unit test expects
`vec2.size() == 3` after `vec2 = std::move(vec1)`, so the code contradicts its
own tests. -/
theorem C5_move_assignment_discards_the_source :
    moveCtor (mkVectorOf [1, 2, 3]) = (mkVectorOf [1, 2, 3], defaultVector) ∧
    moveAssign (mkVectorOf [4, 5]) (mkVectorOf [1, 2, 3]) =
      (defaultVector, defaultVector) ∧
    defaultVector.m_Size = 0 :=
  ⟨rfl, rfl, rfl⟩

/-- C7: the claim states the invariant that no reachable state has
`size > capacity` or a non-null `data` with `capacity == 0`.  The code
violates both parts: `Shrink_To_Fit()` on a default-constructed vector
allocates `new T[0]` — a non-null block — and sets `m_Capacity = 0`, giving a
caller-observable state (via `Data()`) with non-null `data` and zero capacity;
and `Push_Back` on the same vector fails to grow the capacity (see C1) and
writes through the null buffer while incrementing `m_Size` past
`m_Capacity = 0` — undefined behaviour instead of the guaranteed invariant. -/
theorem C7_size_capacity_invariant_violated :
    Shrink_To_Fit defaultVector = .ok ⟨some [], 0, 0⟩ ∧
    (VecState.mk (some []) 0 0).m_Data ≠ none ∧
    (∀ x : Int, Push_Back defaultVector x = .error .ub) :=
  ⟨rfl, by simp, fun _ => rfl⟩

/-- C6, counterexample: the claim says `a + b` zero-pads the shorter operand
to `max(a.size(), b.size())`, so that `{1,2,3} + {1,2,3,4}` has 4 elements.
In the code `operator+` concatenates: the result has
`a.size() + b.size() = 7` elements. -/
theorem C6_add_zero_padding_counterexample :
    vaddVec (mkVectorOf [1, 2, 3]) (mkVectorOf [1, 2, 3, 4]) =
      .ok ⟨some [1, 2, 3, 1, 2, 3, 4], 7, 7⟩ :=
  rfl

/-- C8, counterexample: the claim says `Insert(index, v)` succeeds for every
`index ≤ size` and rejects only `index > size`.  The code rejects
`index >= m_Size`, so inserting at `index == size` (here 3, on `{1,2,3}`)
throws `std::out_of_range` instead of succeeding. -/
theorem C8_insert_at_size_counterexample :
    Insert (mkVectorOf [1, 2, 3]) 3 10 = .error .outOfRange :=
  rfl

/-- C9, counterexample: the claim says `Erase(index)` followed by
`Insert(index, old_value)` restores the vector for every valid index.  For
the last valid index this fails: erasing index 0 of the one-element vector
`{5}` returns 5 and shrinks the size to 0, and the subsequent `Insert(0, 5)`
throws `std::out_of_range` because `Insert` rejects `index >= m_Size`. -/
theorem C9_erase_insert_last_index_counterexample :
    Erase (mkVectorOf [5]) 0 = .ok (⟨some [5], 0, 1⟩, 5) ∧
    Insert ⟨some [5], 0, 1⟩ 0 5 = .error .outOfRange :=
  ⟨rfl, rfl⟩

end DSVector

namespace DSVector

lemma wfb_some {s : VecState} {l : List Int} (h : wfb s = true) (hd : s.m_Data = some l) :
    l.length = s.m_Capacity ∧ s.m_Size ≤ s.m_Capacity := by
  unfold wfb at h; rw [hd] at h; simpa using h

lemma wfb_none {s : VecState} (h : wfb s = true) (hd : s.m_Data = none) :
    s.m_Size = 0 ∧ s.m_Capacity = 0 := by
  unfold wfb at h; rw [hd] at h; simpa using h

lemma size_le_cap {s : VecState} (h : wfb s = true) : s.m_Size ≤ s.m_Capacity := by
  cases hd : s.m_Data with
  | none => exact (wfb_none h hd).1 ▸ Nat.zero_le _
  | some l => exact (wfb_some h hd).2

lemma data_some_of_size_pos {s : VecState} (h : wfb s = true) (hs : 0 < s.m_Size) :
    ∃ l, s.m_Data = some l ∧ l.length = s.m_Capacity := by
  cases hd : s.m_Data with
  | none => exact absurd (wfb_none h hd).1 (by omega)
  | some l => exact ⟨l, rfl, (wfb_some h hd).1⟩

lemma readSeg_live {s : VecState} (h : wfb s = true) :
    readSeg s.m_Data s.m_Size = .ok (live s) := by
  cases hd : s.m_Data with
  | none =>
    obtain ⟨h0, -⟩ := wfb_none h hd
    simp [readSeg, live, hd, h0]
  | some l =>
    obtain ⟨hlen, hsz⟩ := wfb_some h hd
    by_cases h0 : s.m_Size = 0
    · simp [readSeg, live, hd, h0]
    · have hle : s.m_Size ≤ l.length := by omega
      simp [readSeg, live, hd, h0, hle]

lemma length_live {s : VecState} (h : wfb s = true) : (live s).length = s.m_Size := by
  cases hd : s.m_Data with
  | none =>
    obtain ⟨h0, -⟩ := wfb_none h hd
    simp [live, hd, h0]
  | some l =>
    obtain ⟨hlen, hsz⟩ := wfb_some h hd
    simp [live, hd]
    omega

lemma live_mk (l : List Int) (n c : Nat) : live ⟨some l, n, c⟩ = l.take n := rfl

lemma ReAlloc_grow {s : VecState} {n : Nat} (h : wfb s = true) (hn : s.m_Capacity < n) :
    ReAlloc s n =
      .ok ⟨some (live s ++ List.replicate (n - s.m_Size) 0), s.m_Size, n⟩ := by
  have hsz := size_le_cap h
  rw [ReAlloc, if_neg (by omega), readSeg_live h]
  simp only []
  rw [if_pos (by omega)]

lemma length_shiftRightSeg {l : List Int} {index size : Nat}
    (h1 : index < size) (h2 : size < l.length) :
    (shiftRightSeg l index size).length = l.length := by
  simp [shiftRightSeg]; omega

lemma take_set_last {l : List Int} {n : Nat} (x : Int) (h : n < l.length) :
    (l.take (n + 1)).set n x = l.take n ++ [x] := by
  have hlen : (l.take n).length = n := by rw [List.length_take]; omega
  rw [List.take_succ, List.getElem?_eq_getElem h, List.set_append, if_neg (by omega), hlen]
  simp

lemma shiftRight_set_take {l : List Int} {index size : Nat} (x : Int)
    (h1 : index < size) (h2 : size < l.length) :
    ((shiftRightSeg l index size).set index x).take (size + 1) =
      l.take index ++ x :: (l.drop index).take (size - index) := by
  have hA : (l.take (index + 1)).length = index + 1 := by rw [List.length_take]; omega
  have hB : ((l.drop index).take (size - index)).length = size - index := by
    rw [List.length_take, List.length_drop]; omega
  have hP : (l.take index ++ [x]).length = index + 1 := by
    rw [List.length_append, List.length_take]; simp; omega
  unfold shiftRightSeg
  rw [List.append_assoc, List.set_append, if_pos (by omega)]
  rw [take_set_last x (by omega)]
  rw [List.take_append_eq_append_take, hP]
  rw [List.take_of_length_le (by rw [hP]; omega)]
  rw [show size + 1 - (index + 1) = size - index from by omega]
  rw [List.take_left' hB]
  simp

lemma length_shiftLeftSeg {l : List Int} {index size : Nat}
    (h1 : index < size) (h2 : size ≤ l.length) :
    (shiftLeftSeg l index size).length = l.length := by
  simp [shiftLeftSeg]; omega

lemma shiftLeft_take {l : List Int} {index size : Nat}
    (h1 : index < size) (h2 : size ≤ l.length) :
    (shiftLeftSeg l index size).take (size - 1) =
      l.take index ++ (l.drop (index + 1)).take (size - 1 - index) := by
  have hP : (l.take index).length = index := by rw [List.length_take]; omega
  have hB : ((l.drop (index + 1)).take (size - 1 - index)).length = size - 1 - index := by
    rw [List.length_take, List.length_drop]; omega
  unfold shiftLeftSeg
  rw [List.append_assoc]
  rw [List.take_append_eq_append_take, hP]
  rw [List.take_of_length_le (by rw [hP]; omega)]
  rw [List.take_left' hB]

end DSVector

namespace DSVector

lemma Insert_ok_spec {s : VecState} {index : Nat} (x : Int)
    (hwf : wfb s = true) (hidx : index < s.m_Size)
    (hroom : s.m_Size < s.m_Capacity ∨ 2 ≤ s.m_Capacity) :
    (Insert s index x).map (fun p => (live p.1, p.1.m_Size, p.2)) =
      .ok ((live s).take index ++ x :: (live s).drop index, s.m_Size + 1, x) := by
  by_cases hfull : s.m_Size = s.m_Capacity
  · -- full vector: the left disjunct is impossible, so capacity ≥ 2 and growth is real
    have hcap2 : 2 ≤ s.m_Capacity := by
      rcases hroom with h | h
      · omega
      · exact h
    have hgrow : s.m_Capacity < s.m_Capacity + s.m_Capacity / 2 := by omega
    have hlive : (live s).length = s.m_Size := length_live hwf
    set L1 : List Int :=
      live s ++ List.replicate (s.m_Capacity + s.m_Capacity / 2 - s.m_Size) 0 with hL1
    have hL1len : L1.length = s.m_Capacity + s.m_Capacity / 2 := by
      rw [hL1, List.length_append, List.length_replicate, hlive]; omega
    have hszlt : s.m_Size < L1.length := by omega
    rw [Insert, if_neg (by omega), if_pos hfull, ReAlloc_grow hwf hgrow]
    simp only []
    rw [if_pos hszlt]
    have hwlen : index < (shiftRightSeg L1 index s.m_Size).length := by
      rw [length_shiftRightSeg hidx hszlt]; omega
    rw [blockWrite, if_pos hwlen]
    simp only []
    rw [blockRead]
    rw [List.get?_eq_getElem?, List.getElem?_set_self hwlen]
    simp only [Except.map]
    rw [live_mk]
    rw [shiftRight_set_take x hidx hszlt]
    -- translate the block-level segments back to the live sequence
    have hEq1 : L1.take index = (live s).take index := by
      rw [hL1, List.take_append_of_le_length (by omega)]
    have hEq2 : (L1.drop index).take (s.m_Size - index) = (live s).drop index := by
      rw [hL1, List.drop_append_of_le_length (by omega)]
      rw [List.take_append_eq_append_take]
      rw [List.take_of_length_le (by rw [List.length_drop, hlive])]
      rw [show s.m_Size - index - ((live s).drop index).length = 0 from by
        rw [List.length_drop, hlive]; omega]
      simp
    rw [hEq1, hEq2]
  · -- not full: no reallocation
    have hszcap := size_le_cap hwf
    obtain ⟨l, hd, hlen⟩ := data_some_of_size_pos hwf (by omega)
    have hszlt : s.m_Size < l.length := by omega
    rw [Insert, if_neg (by omega), if_neg hfull]
    simp only []
    rw [hd]
    simp only []
    rw [if_pos hszlt]
    have hwlen : index < (shiftRightSeg l index s.m_Size).length := by
      rw [length_shiftRightSeg hidx hszlt]; omega
    rw [blockWrite, if_pos hwlen]
    simp only []
    rw [blockRead]
    rw [List.get?_eq_getElem?, List.getElem?_set_self hwlen]
    simp only [Except.map]
    rw [live_mk]
    rw [shiftRight_set_take x hidx hszlt]
    have hlive : live s = l.take s.m_Size := by rw [live, hd]
    have hEq1 : l.take index = (live s).take index := by
      rw [hlive, List.take_take, Nat.min_eq_left (by omega)]
    have hEq2 : (l.drop index).take (s.m_Size - index) = (live s).drop index := by
      rw [hlive, List.drop_take]
    rw [hEq1, hEq2]

end DSVector

namespace DSVector

lemma Erase_ok_spec {s : VecState} {l : List Int} {index : Nat}
    (hd : s.m_Data = some l) (hlen : l.length = s.m_Capacity)
    (hsz : s.m_Size ≤ s.m_Capacity) (hidx : index < s.m_Size) :
    Erase s index =
      .ok (⟨some (shiftLeftSeg l index s.m_Size), s.m_Size - 1, s.m_Capacity⟩,
           l.getD index 0) := by
  have hi : index < l.length := by omega
  rw [Erase, if_neg (by omega), hd, blockRead]
  rw [List.get?_eq_getElem?, List.getElem?_eq_getElem hi]
  simp only []
  rw [if_pos (by omega)]
  rw [List.getD_eq_getElem l 0 hi]

lemma Insert_ok_inv {s : VecState} {index : Nat} (x : Int)
    (hwf : wfb s = true) (hidx : index < s.m_Size)
    (hroom : s.m_Size < s.m_Capacity ∨ 2 ≤ s.m_Capacity) :
    ∃ t, Insert s index x = .ok (t, x) ∧
      live t = (live s).take index ++ x :: (live s).drop index ∧
      t.m_Size = s.m_Size + 1 := by
  have h := Insert_ok_spec x hwf hidx hroom
  cases hr : Insert s index x with
  | error e => rw [hr] at h; simp [Except.map] at h
  | ok p =>
    rw [hr] at h
    simp only [Except.map, Except.ok.injEq, Prod.mk.injEq] at h
    refine ⟨p.1, ?_, h.1, h.2.1⟩
    rw [← h.2.2]

end DSVector

namespace DSVector

/-- C8, amended: for every well-formed vector, `Insert(index, v)` rejects
exactly the indices with `index >= size` (not `index > size` as claimed;
negative indices are impossible for the unsigned parameter) with an
out-of-range signal, and succeeds for every `index < size` — provided the
vector is not full or has capacity at least 2, so that the growth step
actually makes room — shifting `[index, size)` right by one, placing `v` at
`index`, growing the size by one and returning `v`. -/
theorem C8_insert_behavior (s : VecState) (index : Nat) (x : Int)
    (hwf : wfb s = true)
    (hroom : s.m_Size < s.m_Capacity ∨ 2 ≤ s.m_Capacity) :
    (index < s.m_Size →
      (Insert s index x).map (fun p => (live p.1, p.1.m_Size, p.2)) =
        .ok ((live s).take index ++ x :: (live s).drop index, s.m_Size + 1, x)) ∧
    (s.m_Size ≤ index → Insert s index x = .error .outOfRange) :=
  ⟨fun h => Insert_ok_spec x hwf h hroom, fun h => by rw [Insert, if_pos h]⟩

/-- C8 witness: the amended theorem at the concrete vector `{1, 2}` with
`index = 0` (success case) and `index = 2 = size` (rejection case). -/
theorem C8_insert_behavior_witness :
    ((Insert (mkVectorOf [1, 2]) 0 5).map (fun p => (live p.1, p.1.m_Size, p.2)) =
      .ok ([5, 1, 2], 3, 5)) ∧
    Insert (mkVectorOf [1, 2]) 2 9 = .error .outOfRange := by
  constructor
  · have h := (C8_insert_behavior (mkVectorOf [1, 2]) 0 5 (by decide) (by decide)).1 (by decide)
    exact h
  · exact (C8_insert_behavior (mkVectorOf [1, 2]) 2 9 (by decide) (by decide)).2 (by decide)

/-- C9, amended: `Erase(index)` followed by `Insert(index, old_value)` with
the erased value restores the original live sequence and the original size
for every valid index except the last one (`index + 1 < size`); for
`index = size - 1` the subsequent `Insert` throws out-of-range (see the
counterexample), because `Insert` rejects `index >= size` and the erase
shrank the size to `index`. -/
theorem C9_erase_insert_roundtrip (s : VecState) (index : Nat)
    (hwf : wfb s = true) (hidx : index + 1 < s.m_Size) :
    (Erase s index).bind
        (fun p => (Insert p.1 index p.2).map fun q => (live q.1, q.1.m_Size)) =
      .ok (live s, s.m_Size) := by
  obtain ⟨l, hd, hlen⟩ := data_some_of_size_pos hwf (by omega)
  have hsz := size_le_cap hwf
  have hi : index < l.length := by omega
  rw [Erase_ok_spec hd hlen hsz (by omega)]
  simp only [Except.bind]
  have hwf1 : wfb ⟨some (shiftLeftSeg l index s.m_Size), s.m_Size - 1, s.m_Capacity⟩ = true := by
    simp only [wfb, Bool.and_eq_true, beq_iff_eq, decide_eq_true_eq]
    refine ⟨?_, by omega⟩
    rw [length_shiftLeftSeg (show index < s.m_Size by omega) (show s.m_Size ≤ l.length by omega)]
    exact hlen
  obtain ⟨t, hins, hlive_t, hsize_t⟩ :=
    Insert_ok_inv (l.getD index 0) hwf1
      (show index < s.m_Size - 1 by omega)
      (Or.inl (show s.m_Size - 1 < s.m_Capacity by omega))
  rw [hins]
  simp only [Except.map]
  have h2 : t.m_Size = s.m_Size := by
    rw [hsize_t]; show s.m_Size - 1 + 1 = s.m_Size; omega
  have h1 : live t = live s := by
    rw [hlive_t, live_mk,
        shiftLeft_take (show index < s.m_Size by omega) (show s.m_Size ≤ l.length by omega)]
    have hA : (l.take index).length = index := by rw [List.length_take]; omega
    rw [List.take_left' hA, List.drop_left' hA]
    simp only [live, hd]
    rw [List.getD_eq_getElem l 0 hi]
    conv_rhs => rw [← List.take_append_drop index (l.take s.m_Size)]
    rw [List.take_take, List.drop_take]
    rw [show index ⊓ s.m_Size = index from by omega]
    rw [List.drop_eq_getElem_cons hi]
    rw [show s.m_Size - index = s.m_Size - 1 - index + 1 from by omega]
    rw [List.take_succ_cons]
  rw [h1, h2]

/-- C9 witness: the amended roundtrip at the concrete vector `{1, 2, 3}`
with `index = 0`. -/
theorem C9_erase_insert_roundtrip_witness :
    (Erase (mkVectorOf [1, 2, 3]) 0).bind
        (fun p => (Insert p.1 0 p.2).map fun q => (live q.1, q.1.m_Size)) =
      .ok ([1, 2, 3], 3) := by
  have h := C9_erase_insert_roundtrip (mkVectorOf [1, 2, 3]) 0 (by decide) (by decide)
  exact h

end DSVector

namespace DSVector

lemma shiftRightBySeg_at_end (l : List Int) (size count : Nat) :
    shiftRightBySeg l size size count = l := by
  simp [shiftRightBySeg]

lemma writeSeg_take {l : List Int} {index : Nat} (xs : List Int) (h : index ≤ l.length) :
    (writeSeg l index xs).take (index + xs.length) = l.take index ++ xs := by
  have hP : (l.take index ++ xs).length = index + xs.length := by
    rw [List.length_append, List.length_take]; omega
  rw [writeSeg]
  exact List.take_left' hP

/-- C10: the bulk `Insert(pos, {values...})` accepts the one-past-last
position: for every well-formed vector, inserting at offset `size` does not
raise, appends the listed values in order (growing the buffer with the
`max(capacity * 1.5, size + count)` rule when needed), and only an offset
strictly greater than `size` raises the out-of-range signal — unlike the
single-element `Insert`, which rejects the offset equal to `size`. -/
theorem C10_bulk_insert_at_end (s : VecState) (elements : List Int) (pos : Nat) (x : Int)
    (hwf : wfb s = true) :
    ((InsertList s s.m_Size elements).map (fun t => (live t, t.m_Size)) =
        .ok (live s ++ elements, s.m_Size + elements.length)) ∧
    (s.m_Size < pos → InsertList s pos elements = .error .outOfRange) ∧
    Insert s s.m_Size x = .error .outOfRange := by
  have hsz := size_le_cap hwf
  have hlive := length_live hwf
  refine ⟨?_, fun hp => by rw [InsertList, if_pos hp], by rw [Insert, if_pos (le_refl _)]⟩
  rw [InsertList, if_neg (by omega)]
  by_cases hg : s.m_Capacity < s.m_Size + elements.length
  · -- the buffer is too small: ReAlloc grows it
    have hgrow : s.m_Capacity <
        max (s.m_Capacity + s.m_Capacity / 2) (s.m_Size + elements.length) := by omega
    have hc : elements.length ≠ 0 := by omega
    rw [if_pos hg, ReAlloc_grow hwf hgrow]
    simp only []
    rw [if_neg (by simp [hc])]
    rw [if_pos (by rw [List.length_append, List.length_replicate, hlive]; omega)]
    simp only [Except.map]
    rw [live_mk, shiftRightBySeg_at_end,
        writeSeg_take elements (by rw [List.length_append, List.length_replicate, hlive]; omega)]
    rw [List.take_append_of_le_length (by rw [hlive]),
        List.take_of_length_le (by rw [hlive])]
  · -- the buffer already fits the new elements
    rw [if_neg hg]
    simp only []
    by_cases hc : elements.length = 0
    · obtain rfl : elements = [] := List.eq_nil_of_length_eq_zero hc
      rw [if_pos (by simp)]
      simp [Except.map]
    · cases hdm : s.m_Data with
      | none => exact absurd ((wfb_none hwf hdm).2) (by omega)
      | some l =>
        have hlen := (wfb_some hwf hdm).1
        rw [if_neg (by simp [hc])]
        simp only []
        rw [if_pos (by omega)]
        simp only [Except.map]
        rw [live_mk, shiftRightBySeg_at_end, writeSeg_take elements (by omega)]
        rw [show live s = l.take s.m_Size from by simp [live, hdm]]

/-- C10 witness: the theorem at the concrete vector `{1, 2}` appending
`{7, 8}` at offset 2 = size (success), at offset 3 (rejection), and the
single-element `Insert` at offset 2 (rejection). -/
theorem C10_bulk_insert_at_end_witness :
    ((InsertList (mkVectorOf [1, 2]) 2 [7, 8]).map (fun t => (live t, t.m_Size)) =
        .ok ([1, 2, 7, 8], 4)) ∧
    InsertList (mkVectorOf [1, 2]) 3 [7, 8] = .error .outOfRange ∧
    Insert (mkVectorOf [1, 2]) 2 9 = .error .outOfRange := by
  have h := C10_bulk_insert_at_end (mkVectorOf [1, 2]) [7, 8] 3 9 (by decide)
  exact ⟨h.1, h.2.1 (by decide), h.2.2⟩

/-- C6, amended: only `operator-` tolerates mismatched sizes by zero-padding
the shorter operand up to `max(a.size(), b.size())` and combining
elementwise, producing a result of that maximum length; `operator+` instead
concatenates the two element sequences, producing a result of length
`a.size() + b.size()` — in particular `{1,2,3} + {1,2,3,4}` yields a
7-element result, not a 4-element one (see the counterexample). -/
theorem C6_add_concatenates_sub_zero_pads (a b : VecState)
    (hwa : wfb a = true) (hwb : wfb b = true) :
    (vaddVec a b =
      .ok ⟨some (live a ++ live b), a.m_Size + b.m_Size, a.m_Size + b.m_Size⟩) ∧
    ((vsubVec a b).map (fun t => t.m_Size) = .ok (max a.m_Size b.m_Size)) ∧
    (∀ i, i < max a.m_Size b.m_Size →
      (vsubVec a b).bind (fun t => blockRead t.m_Data i) =
        .ok ((live a).getD i 0 - (live b).getD i 0)) := by
  refine ⟨?_, ?_, ?_⟩
  · rw [vaddVec, readSeg_live hwa, readSeg_live hwb]
  · rw [vsubVec, readSeg_live hwa, readSeg_live hwb]
    simp [Except.map]
  · intro i hilt
    rw [vsubVec, readSeg_live hwa, readSeg_live hwb]
    simp only [Except.bind]
    rw [blockRead]
    rw [List.get?_eq_getElem?, List.getElem?_map, List.getElem?_range hilt]
    simp [Option.map]

/-- C6 witness: the amended theorem at the concrete vectors `{1,2,3} + {5}`
(concatenation) and `{1,2,3} - {1,2,3,4}` at position 3 (zero-padding:
`0 - 4 = -4`). -/
theorem C6_add_concatenates_sub_zero_pads_witness :
    (vaddVec (mkVectorOf [1, 2, 3]) (mkVectorOf [5]) =
      .ok ⟨some [1, 2, 3, 5], 4, 4⟩) ∧
    (vsubVec (mkVectorOf [1, 2, 3]) (mkVectorOf [1, 2, 3, 4])).bind
        (fun t => blockRead t.m_Data 3) = .ok (-4) := by
  have h := C6_add_concatenates_sub_zero_pads (mkVectorOf [1, 2, 3]) (mkVectorOf [5])
    (by decide) (by decide)
  have h2 := C6_add_concatenates_sub_zero_pads (mkVectorOf [1, 2, 3]) (mkVectorOf [1, 2, 3, 4])
    (by decide) (by decide)
  refine ⟨h.1, ?_⟩
  have h3 := h2.2.2 3 (by decide)
  simpa using h3

end DSVector
